import Mathlib

/-!
Shallow embedding of the OpenROV camera-servo controller
(`src/sketches/OpenROV2x/CCameraServo.cpp`).

Modelling conventions:
* C++ `float` values are modelled as exact rationals (`ℚ`); the float
  literals of the source (`1487.0f`, `9.523809f`, `0.001f`, `1000.0f`)
  become the corresponding exact rationals.
* `uint32_t` is modelled as `ℕ`.  The C++ cast `static_cast<uint32_t>(f)`
  truncates toward zero and is undefined behaviour when the truncated
  value is not representable, i.e. when `f ≤ -1` or `f ≥ 2^32`; on the
  defined range `(-1, 2^32)` it agrees with `fun q => (Int.floor q).toNat`,
  which is how we model it (`u32cast`).  Definedness of the cast is
  tracked separately (`DegreesToMicrosecondsDefined`).
* `int32_t` casts (`static_cast<int32_t>(f)` in `Encode`) truncate toward
  zero: floor for nonnegative values, ceiling for negative ones
  (`i32trunc`).
* The division `error / static_cast<float>(m_tDelta)` at line 175 follows
  IEEE-754 when `m_tDelta == 0`: it yields `+inf` (error > 0), `-inf`
  (error < 0) or `NaN` (error == 0), and the comparison `x < speed` is
  then `false`, `true`, `false` respectively.  `snapCond` reproduces
  exactly this behaviour in its `tDelta = 0` branch; for `tDelta ≠ 0` the
  operands are finite and the rational comparison is faithful.
-/

/-- `constexpr float kZeroPosMicrosecs = 1487.0f` (line 40). -/
def kZeroPosMicrosecs : ℚ := 1487

/-- `constexpr float kMicrosecPerDegree = 9.523809f` (line 41). -/
def kMicrosecPerDegree : ℚ := 9.523809

/-- `constexpr float kDegPerMicrosec = (1 / kMicrosecPerDegree)` (line 42). -/
def kDegPerMicrosec : ℚ := 1 / kMicrosecPerDegree

/-- Model of `static_cast<uint32_t>(q)` for a floating value `q`: truncation
toward zero, which on the defined range `(-1, 2^32)` of the cast coincides
with `(Int.floor q).toNat`. -/
def u32cast (q : ℚ) : ℕ := (Int.floor q).toNat

/-- Model of `static_cast<int32_t>(q)`: truncation toward zero. -/
def i32trunc (q : ℚ) : ℤ := if 0 ≤ q then Int.floor q else Int.ceil q

/-- Model of C++ `int` → `bool` conversion (nonzero is `true`), as applied to
`m_isInverted` when it is passed to `DegreesToMicroseconds` (line 129). -/
def intToBool (i : ℤ) : Bool := decide (i ≠ 0)

/-- The floating-point value computed inside `DegreesToMicroseconds`
(line 31) before the `static_cast<uint32_t>`:
`(kMicrosecPerDegree * (isInverted ? -degreesIn : degreesIn)) + kZeroPosMicrosecs`. -/
def DegreesToMicrosecondsQ (degreesIn : ℚ) (isInverted : Bool) : ℚ :=
  kMicrosecPerDegree * (if isInverted then -degreesIn else degreesIn) + kZeroPosMicrosecs

/-- `constexpr uint32_t DegreesToMicroseconds(float degreesIn, bool isInverted = false)`
(lines 29-32): the value `DegreesToMicrosecondsQ` cast to `uint32_t`. -/
def DegreesToMicroseconds (degreesIn : ℚ) (isInverted : Bool) : ℕ :=
  u32cast (DegreesToMicrosecondsQ degreesIn isInverted)

/-- Definedness of the `static_cast<uint32_t>` inside `DegreesToMicroseconds`:
per C++ [conv.fpint], the conversion is defined exactly when the value
truncated toward zero is representable in `uint32_t`, i.e. when the value
lies in `(-1, 2^32)`. -/
def DegreesToMicrosecondsDefined (degreesIn : ℚ) (isInverted : Bool) : Prop :=
  -1 < DegreesToMicrosecondsQ degreesIn isInverted ∧
    DegreesToMicrosecondsQ degreesIn isInverted < 2 ^ 32

instance (d : ℚ) (i : Bool) : Decidable (DegreesToMicrosecondsDefined d i) := by
  unfold DegreesToMicrosecondsDefined; infer_instance

/-- The float computation inside `MicrosecondsToDegrees` (lines 34-38), with
the `static_cast<float>(microsecondsIn)` argument generalised to a rational. -/
def MicrosecondsToDegreesQ (microsecondsIn : ℚ) (isInverted : Bool) : ℚ :=
  if isInverted then -((microsecondsIn - kZeroPosMicrosecs) * kDegPerMicrosec)
  else (microsecondsIn - kZeroPosMicrosecs) * kDegPerMicrosec

/-- `constexpr float MicrosecondsToDegrees(uint32_t microsecondsIn, bool isInverted = false)`
(lines 34-38). -/
def MicrosecondsToDegrees (microsecondsIn : ℕ) (isInverted : Bool) : ℚ :=
  MicrosecondsToDegreesQ (microsecondsIn : ℚ) isInverted

/-- `constexpr int32_t Encode(float valueIn)` (lines 70-73):
`static_cast<int32_t>(valueIn * 1000.0f)`. -/
def Encode (valueIn : ℚ) : ℤ := i32trunc (valueIn * 1000)

/-- `constexpr float Decode(int32_t valueIn)` (lines 75-78):
`static_cast<float>(valueIn) * 0.001f`. -/
def Decode (valueIn : ℤ) : ℚ := (valueIn : ℚ) * 0.001

/-- The file-local mutable state of the module (lines 53-67), gathered in a
structure: positions, targets, speed settings and the inversion flag.
(The two `CTimer`s and `m_tDelta`/`m_tLast` are timing state; the elapsed
time `tDelta` is passed to the control-tick function as a parameter.) -/
structure ServoState where
  targetPos_deg : ℚ
  currentPos_deg : ℚ
  targetPos_us : ℕ
  currentPos_us : ℕ
  fCurrentPos_us : ℚ
  speed_deg_per_s : ℚ
  isInverted : ℤ
  speed_us_per_ms : ℚ
deriving DecidableEq, Repr

/-- `constexpr uint32_t kNeutralPosition_us = DegreesToMicroseconds(0.0f)` (line 45). -/
def kNeutralPosition_us : ℕ := DegreesToMicroseconds 0 false

/-- `constexpr float kDefaultSpeed = 50.0f` (line 47). -/
def kDefaultSpeed : ℚ := 50

/-- Initial values of the file-local variables (lines 53-67). -/
def initialState : ServoState :=
  { targetPos_deg := 0
    currentPos_deg := 0
    targetPos_us := kNeutralPosition_us
    currentPos_us := kNeutralPosition_us
    fCurrentPos_us := kZeroPosMicrosecs
    speed_deg_per_s := kDefaultSpeed
    isInverted := 0
    speed_us_per_ms := kDefaultSpeed * 0.001 * kMicrosecPerDegree }

/-- The branch condition at line 175:
`( error / static_cast<float>( m_tDelta ) ) < m_speed_us_per_ms`.
For `tDelta ≠ 0` this is the exact rational comparison.  For `tDelta = 0`
the IEEE-754 division yields `+inf`/`-inf`/`NaN` according to the sign of
`error`, and the comparison with the finite `m_speed_us_per_ms` is then
`false`/`true`/`false`, i.e. it holds exactly when `error < 0`. -/
def snapCond (error : ℚ) (tDelta : ℕ) (speed_us_per_ms : ℚ) : Bool :=
  if tDelta = 0 then decide (error < 0)
  else decide (error / (tDelta : ℚ) < speed_us_per_ms)

/-- One control tick: the body of the 200 Hz block of `CCameraServo::Update`
(lines 169-201), with elapsed time `tDelta = millis() - m_tLast` passed in.
If the position differs from the target, either snap to the target
(lines 176-186) or take the proportional step (lines 187-194), then
recompute `m_currentPos_deg = MicrosecondsToDegrees(m_currentPos_us)`
(line 200; the inversion flag is left at its default `false`). -/
def controlTick (st : ServoState) (tDelta : ℕ) : ServoState :=
  if st.currentPos_us = st.targetPos_us then st
  else
    if snapCond ((st.targetPos_us : ℚ) - st.fCurrentPos_us) tDelta st.speed_us_per_ms then
      { st with
        currentPos_us := st.targetPos_us
        fCurrentPos_us := (st.targetPos_us : ℚ)
        currentPos_deg := MicrosecondsToDegrees st.targetPos_us false }
    else
      { st with
        fCurrentPos_us :=
          st.fCurrentPos_us + st.speed_us_per_ms * ((st.targetPos_us : ℚ) - st.fCurrentPos_us)
        currentPos_us :=
          u32cast (st.fCurrentPos_us +
            st.speed_us_per_ms * ((st.targetPos_us : ℚ) - st.fCurrentPos_us))
        currentPos_deg :=
          MicrosecondsToDegrees
            (u32cast (st.fCurrentPos_us +
              st.speed_us_per_ms * ((st.targetPos_us : ℚ) - st.fCurrentPos_us))) false }

/-- Whether the division `error / static_cast<float>(m_tDelta)` at line 175
is evaluated with a zero divisor during a control tick: the division sits
inside the `if (m_currentPos_us != m_targetPos_us)` guard (line 170) and is
always evaluated when that guard is entered. -/
def controlDividesByZero (st : ServoState) (tDelta : ℕ) : Bool :=
  decide (st.currentPos_us ≠ st.targetPos_us) && decide (tDelta = 0)

/-- The three recognized commands (lines 117, 131, 142), each carrying its
`command.m_arguments[1]` value; `other` stands for an unrecognized command. -/
inductive CCommand where
  | tpos (arg : ℤ)
  | spd (arg : ℤ)
  | inv (arg : ℤ)
  | other
deriving DecidableEq, Repr

/-- The command-dispatch block of `CCameraServo::Update` (lines 114-161).
Returns the new state together with the list of emitted acknowledgements,
each modelled as the pair (command name, echoed integer value) that the
`Serial.print` calls write as `name:value;`. -/
def handleCommand (st : ServoState) (cmd : CCommand) : ServoState × List (String × ℤ) :=
  match cmd with
  | .tpos a =>
      ({ st with
         targetPos_deg := Decode a
         targetPos_us := DegreesToMicroseconds (Decode a) (intToBool st.isInverted) },
       [("camServ_tpos", a)])
  | .spd a =>
      ({ st with
         speed_deg_per_s := Decode a
         speed_us_per_ms := Decode a * 0.001 * kMicrosecPerDegree },
       [("camServ_spd", a)])
  | .inv a =>
      if a = 1 then ({ st with isInverted := 1 }, [("camServ_inv", 1)])
      else if a = 0 then ({ st with isInverted := 0 }, [("camServ_inv", 0)])
      else (st, [])
  | .other => (st, [])

/-- The invariant claimed in the spec (§3): `m_targetPos_us` is the
`DegreesToMicroseconds` image of `m_targetPos_deg` under the currently
stored inversion flag. -/
def TargetSync (st : ServoState) : Prop :=
  st.targetPos_us = DegreesToMicroseconds st.targetPos_deg (intToBool st.isInverted)

instance (st : ServoState) : Decidable (TargetSync st) := by
  unfold TargetSync; infer_instance

/-! ## Basic lemmas about the control tick -/

theorem controlTick_eq_self (st : ServoState) (tDelta : ℕ)
    (h : st.currentPos_us = st.targetPos_us) : controlTick st tDelta = st := by
  simp [controlTick, h]

theorem controlTick_targetPos_us (st : ServoState) (tDelta : ℕ) :
    (controlTick st tDelta).targetPos_us = st.targetPos_us := by
  unfold controlTick
  split
  · rfl
  · split <;> rfl

theorem controlTick_speed_us_per_ms (st : ServoState) (tDelta : ℕ) :
    (controlTick st tDelta).speed_us_per_ms = st.speed_us_per_ms := by
  unfold controlTick
  split
  · rfl
  · split <;> rfl

theorem controlTick_snap_fields (st : ServoState) (tDelta : ℕ)
    (hne : ¬ st.currentPos_us = st.targetPos_us)
    (hsnap : snapCond ((st.targetPos_us : ℚ) - st.fCurrentPos_us) tDelta
      st.speed_us_per_ms = true) :
    (controlTick st tDelta).currentPos_us = st.targetPos_us ∧
      (controlTick st tDelta).fCurrentPos_us = (st.targetPos_us : ℚ) ∧
      (controlTick st tDelta).currentPos_deg =
        MicrosecondsToDegrees st.targetPos_us false := by
  simp [controlTick, hne, hsnap]

theorem controlTick_step_fields (st : ServoState) (tDelta : ℕ)
    (hne : ¬ st.currentPos_us = st.targetPos_us)
    (hsnap : snapCond ((st.targetPos_us : ℚ) - st.fCurrentPos_us) tDelta
      st.speed_us_per_ms = false) :
    (controlTick st tDelta).fCurrentPos_us =
        st.fCurrentPos_us + st.speed_us_per_ms * ((st.targetPos_us : ℚ) - st.fCurrentPos_us) ∧
      (controlTick st tDelta).currentPos_us =
        u32cast (st.fCurrentPos_us +
          st.speed_us_per_ms * ((st.targetPos_us : ℚ) - st.fCurrentPos_us)) := by
  simp [controlTick, hne, hsnap]

theorem controlTick_iterate_fix (st : ServoState) (tDelta : ℕ)
    (h : st.currentPos_us = st.targetPos_us) (k : ℕ) :
    (fun s => controlTick s tDelta)^[k] st = st := by
  induction k with
  | zero => rfl
  | succ n ih =>
      rw [Function.iterate_succ_apply, controlTick_eq_self st tDelta h]
      exact ih

theorem controlTick_iterate_targetPos_us (st : ServoState) (tDelta : ℕ) (k : ℕ) :
    ((fun s => controlTick s tDelta)^[k] st).targetPos_us = st.targetPos_us := by
  induction k generalizing st with
  | zero => rfl
  | succ n ih =>
      rw [Function.iterate_succ_apply]
      exact (ih (controlTick st tDelta)).trans (controlTick_targetPos_us st tDelta)

/-! ## C7: set-inversion argument validation -/

/-- C7: a `camServ_inv` command whose argument is neither 0 nor 1 changes no
state and emits no acknowledgement; arguments 0 and 1 set `m_isInverted` to
that value and emit the corresponding fixed acknowledgement. -/
theorem camServ_inv_validation (st : ServoState) (a : ℤ) :
    (a ≠ 0 → a ≠ 1 → handleCommand st (CCommand.inv a) = (st, [])) ∧
    handleCommand st (CCommand.inv 1) =
      ({ st with isInverted := 1 }, [("camServ_inv", 1)]) ∧
    handleCommand st (CCommand.inv 0) =
      ({ st with isInverted := 0 }, [("camServ_inv", 0)]) := by
  refine ⟨fun h0 h1 => ?_, ?_, ?_⟩
  · simp [handleCommand, h0, h1]
  · rfl
  · simp [handleCommand]

/-- Witness for C7, at the initial state with the out-of-range argument 2. -/
theorem camServ_inv_validation_witness :
    ((2 : ℤ) ≠ 0 ∧ (2 : ℤ) ≠ 1 ∧
      handleCommand initialState (CCommand.inv 2) = (initialState, [])) ∧
    handleCommand initialState (CCommand.inv 1) =
      ({ initialState with isInverted := 1 }, [("camServ_inv", 1)]) :=
  ⟨⟨by decide, by decide,
    (camServ_inv_validation initialState 2).1 (by decide) (by decide)⟩,
   (camServ_inv_validation initialState 2).2.1⟩

/-! ## C10: definedness of DegreesToMicroseconds -/

/-- C10 counterexample: at `degreesIn = -200` (uninverted) the value computed
inside `DegreesToMicroseconds` is `1487 - 9.523809 * 200 ≈ -417.76`, and the
`static_cast<uint32_t>` of a float that truncates to a value below 0 is
undefined behaviour, so the conversion is not defined for all finite angles. -/
theorem degreesToMicroseconds_undefined_at_neg200 :
    ¬ DegreesToMicrosecondsDefined (-200) false := by
  unfold DegreesToMicrosecondsDefined DegreesToMicrosecondsQ kMicrosecPerDegree kZeroPosMicrosecs
  norm_num

/-- C10 amended: the conversion is well defined whenever the computed pulse
value truncates into the `uint32_t` range; in particular it is defined for
every angle of magnitude at most 156 degrees, in both inversion states. -/
theorem degreesToMicroseconds_defined_of_abs_le (d : ℚ) (inv : Bool)
    (h : |d| ≤ 156) : DegreesToMicrosecondsDefined d inv := by
  rcases abs_le.mp h with ⟨h1, h2⟩
  unfold DegreesToMicrosecondsDefined DegreesToMicrosecondsQ kMicrosecPerDegree kZeroPosMicrosecs
  cases inv <;> simp only [if_true, if_false, Bool.false_eq_true] <;>
    constructor <;> nlinarith

/-- Witness for C10 amended, at 30 degrees inverted. -/
theorem degreesToMicroseconds_defined_witness :
    |(30 : ℚ)| ≤ 156 ∧ DegreesToMicrosecondsDefined 30 true :=
  ⟨by norm_num, degreesToMicroseconds_defined_of_abs_le 30 true (by norm_num)⟩

/-! ## C8: telemetry encoding -/

/-- C8 counterexample: `Encode` truncates toward zero rather than rounding to
nearest: at `v = 1.9996` the emitted integer is `1999`, while
`round(v * 1000) = 2000`. -/
theorem encode_not_round_at_19996 :
    Encode (1.9996 : ℚ) = 1999 ∧ round ((1.9996 : ℚ) * 1000) = 2000 ∧
      Encode (1.9996 : ℚ) ≠ round ((1.9996 : ℚ) * 1000) := by
  have h1 : Encode (1.9996 : ℚ) = 1999 := by
    unfold Encode i32trunc
    rw [if_pos (by norm_num)]
    norm_num
  have h2 : round ((1.9996 : ℚ) * 1000) = 2000 := by
    rw [round_eq]
    norm_num
  exact ⟨h1, h2, by rw [h1, h2]; decide⟩

/-- C8 amended: the wire encoding truncates toward zero:
`Encode v = ⌊v * 1000⌋` for `v ≥ 0` and `Encode v = ⌈v * 1000⌉` for `v < 0`
(not round-to-nearest); consequently the fixed-point round-trip
`Encode (Decode n) = n` still holds for every integer `n`. -/
theorem encode_truncates_toward_zero (v : ℚ) :
    (0 ≤ v → Encode v = Int.floor (v * 1000)) ∧
    (v < 0 → Encode v = Int.ceil (v * 1000)) ∧
    (∀ n : ℤ, Encode (Decode n) = n) := by
  refine ⟨fun h => ?_, fun h => ?_, fun n => ?_⟩
  · unfold Encode i32trunc
    rw [if_pos (by positivity)]
  · unfold Encode i32trunc
    rw [if_neg (by nlinarith)]
  · unfold Encode Decode i32trunc
    have hv : ((n : ℚ) * 0.001) * 1000 = (n : ℚ) := by
      rw [mul_assoc]
      norm_num
    rw [hv]
    rcases le_or_lt 0 (n : ℚ) with hn | hn
    · rw [if_pos hn, Int.floor_intCast]
    · rw [if_neg (not_le.mpr hn), Int.ceil_intCast]

/-- Witness for C8 amended, at `v = 1.9996` and `n = 7`. -/
theorem encode_truncates_toward_zero_witness :
    ((0 : ℚ) ≤ 1.9996 ∧ Encode (1.9996 : ℚ) = Int.floor ((1.9996 : ℚ) * 1000)) ∧
      Encode (Decode 7) = 7 :=
  ⟨⟨by norm_num, (encode_truncates_toward_zero (1.9996 : ℚ)).1 (by norm_num)⟩,
   (encode_truncates_toward_zero 0).2.2 7⟩

/-! ## C9: unit-converter round trip -/

theorem u32cast_cast (q : ℚ) (h : 0 ≤ q) :
    ((u32cast q : ℕ) : ℚ) = ((Int.floor q : ℤ) : ℚ) := by
  unfold u32cast
  have ht : ((Int.floor q).toNat : ℤ) = Int.floor q :=
    Int.toNat_of_nonneg (Int.floor_nonneg.mpr h)
  exact_mod_cast congrArg (fun z : ℤ => (z : ℚ)) ht

/-- C9 counterexample: at `d = 0.05` degrees (uninverted) the round trip
through the converters returns 0, an error of `0.05` degrees, far beyond the
`10^-3` tolerance used here to formalise "within floating tolerance" (single
precision error near 0.05 would be below `10^-7`): the `uint32_t` truncation
inside `DegreesToMicroseconds` loses up to a whole microsecond. -/
theorem roundTrip_exceeds_milli_tolerance :
    MicrosecondsToDegrees (DegreesToMicroseconds (1/20) false) false = 0 ∧
    ¬ (|MicrosecondsToDegrees (DegreesToMicroseconds (1/20) false) false - 1/20|
        ≤ 1/1000) := by
  have h : DegreesToMicroseconds (1/20) false = 1487 := by
    unfold DegreesToMicroseconds DegreesToMicrosecondsQ u32cast kMicrosecPerDegree
      kZeroPosMicrosecs
    norm_num
    rfl
  have h2 : MicrosecondsToDegrees 1487 false = 0 := by
    unfold MicrosecondsToDegrees MicrosecondsToDegreesQ kZeroPosMicrosecs kDegPerMicrosec
    norm_num
  refine ⟨by rw [h, h2], ?_⟩
  rw [h, h2, show (0 : ℚ) - 1/20 = -(1/20) by norm_num, abs_neg,
    abs_of_pos (by norm_num : (0 : ℚ) < 1/20)]
  norm_num

/-- C9 amended: whenever the computed pulse value is nonnegative (so the
`uint32_t` cast is meaningful), the round trip
`MicrosecondsToDegrees (DegreesToMicroseconds d inv) inv` returns `d` only up
to the truncation of the cast: the error is strictly below
`kDegPerMicrosec ≈ 0.105` degrees (not within floating tolerance), and the
pre-cast linear maps are exact algebraic inverses. -/
theorem roundTrip_within_one_microsecond (d : ℚ) (inv : Bool)
    (h0 : 0 ≤ DegreesToMicrosecondsQ d inv) :
    |MicrosecondsToDegrees (DegreesToMicroseconds d inv) inv - d| < kDegPerMicrosec ∧
    MicrosecondsToDegreesQ (DegreesToMicrosecondsQ d inv) inv = d := by
  constructor
  · have hcast : ((DegreesToMicroseconds d inv : ℕ) : ℚ) =
        ((Int.floor (DegreesToMicrosecondsQ d inv) : ℤ) : ℚ) := by
      unfold DegreesToMicroseconds
      exact u32cast_cast _ h0
    have hle : ((Int.floor (DegreesToMicrosecondsQ d inv) : ℤ) : ℚ) ≤
        DegreesToMicrosecondsQ d inv := Int.floor_le _
    have hgt : DegreesToMicrosecondsQ d inv - 1 <
        ((Int.floor (DegreesToMicrosecondsQ d inv) : ℤ) : ℚ) := Int.sub_one_lt_floor _
    unfold MicrosecondsToDegrees
    rw [hcast, abs_lt]
    unfold MicrosecondsToDegreesQ DegreesToMicrosecondsQ at *
    unfold kDegPerMicrosec kMicrosecPerDegree kZeroPosMicrosecs at *
    cases inv <;> norm_num at * <;> constructor <;> linarith
  · unfold MicrosecondsToDegreesQ DegreesToMicrosecondsQ kDegPerMicrosec kMicrosecPerDegree
      kZeroPosMicrosecs
    cases inv <;> norm_num <;> ring_nf

/-- Witness for C9 amended, at 10 degrees uninverted. -/
theorem roundTrip_within_one_microsecond_witness :
    (0 : ℚ) ≤ DegreesToMicrosecondsQ 10 false ∧
    (|MicrosecondsToDegrees (DegreesToMicroseconds 10 false) false - 10| < kDegPerMicrosec ∧
      MicrosecondsToDegreesQ (DegreesToMicrosecondsQ 10 false) false = 10) :=
  ⟨by unfold DegreesToMicrosecondsQ kMicrosecPerDegree kZeroPosMicrosecs; norm_num,
   roundTrip_within_one_microsecond 10 false
     (by unfold DegreesToMicrosecondsQ kMicrosecPerDegree kZeroPosMicrosecs; norm_num)⟩

/-! ## C4: target synchronization invariant -/

/-- C4 counterexample: starting from a state satisfying the invariant
(`target_deg = 10`, uninverted, `target_us = 1582`), a valid `camServ_inv:1`
command stores the new flag without recomputing `m_targetPos_us`
(lines 142-160 touch only `m_isInverted`), leaving `target_us = 1582` while
`DegreesToMicroseconds(10, true) = 1391`: the invariant is broken. -/
theorem targetSync_broken_by_inversion :
    TargetSync { initialState with targetPos_deg := 10, targetPos_us := 1582 } ∧
    ¬ TargetSync
        (handleCommand { initialState with targetPos_deg := 10, targetPos_us := 1582 }
          (CCommand.inv 1)).1 := by
  have e1 : DegreesToMicroseconds 10 false = 1582 := by
    unfold DegreesToMicroseconds DegreesToMicrosecondsQ u32cast kMicrosecPerDegree
      kZeroPosMicrosecs
    norm_num
    rfl
  have e2 : DegreesToMicroseconds 10 true = 1391 := by
    unfold DegreesToMicroseconds DegreesToMicrosecondsQ u32cast kMicrosecPerDegree
      kZeroPosMicrosecs
    norm_num
    rfl
  constructor
  · show (1582 : ℕ) = DegreesToMicroseconds 10 (intToBool 0)
    rw [show intToBool 0 = false from rfl, e1]
  · show ¬ ((1582 : ℕ) = DegreesToMicroseconds 10 (intToBool 1))
    rw [show intToBool 1 = true from rfl, e2]
    decide

/-- C4 amended: the invariant `target_us = DegreesToMicroseconds(target_deg,
inverted)` is established by every `camServ_tpos` command, and is preserved
by every command that leaves the stored inversion flag unchanged; a valid
`camServ_inv` command that flips the flag does not recompute `target_us`
(so the invariant can go stale exactly then). -/
theorem targetSync_preserved (st : ServoState) (c : CCommand) (a : ℤ) :
    (TargetSync st → (handleCommand st c).1.isInverted = st.isInverted →
      TargetSync (handleCommand st c).1) ∧
    TargetSync (handleCommand st (CCommand.tpos a)).1 := by
  constructor
  · intro hs hflag
    cases c with
    | tpos b => unfold TargetSync handleCommand; rfl
    | spd b => exact hs
    | inv b =>
        rcases eq_or_ne b 1 with hb1 | hb1
        · subst hb1
          have h1 : (handleCommand st (CCommand.inv 1)).1 = { st with isInverted := 1 } := rfl
          rw [h1] at hflag ⊢
          have hinv : st.isInverted = 1 := hflag.symm
          unfold TargetSync at hs ⊢
          rw [hinv] at hs
          exact hs
        · rcases eq_or_ne b 0 with hb0 | hb0
          · subst hb0
            have h1 : (handleCommand st (CCommand.inv 0)).1 = { st with isInverted := 0 } := by
              simp [handleCommand]
            rw [h1] at hflag ⊢
            have hinv : st.isInverted = 0 := hflag.symm
            unfold TargetSync at hs ⊢
            rw [hinv] at hs
            exact hs
          · have h1 : (handleCommand st (CCommand.inv b)).1 = st := by
              simp [handleCommand, hb1, hb0]
            rw [h1]
            exact hs
    | other => exact hs
  · unfold TargetSync handleCommand
    rfl

/-- Witness for C4 amended: the invariant holds initially, is preserved by a
speed command (which does not touch the flag), and is re-established by a
target command. -/
theorem targetSync_preserved_witness :
    (TargetSync initialState ∧
      (handleCommand initialState (CCommand.spd 5)).1.isInverted = initialState.isInverted ∧
      TargetSync (handleCommand initialState (CCommand.spd 5)).1) ∧
    TargetSync (handleCommand initialState (CCommand.tpos 10000)).1 :=
  ⟨⟨rfl, rfl, (targetSync_preserved initialState (CCommand.spd 5) 0).1 rfl rfl⟩,
   (targetSync_preserved initialState (CCommand.spd 5) 10000).2⟩

/-! ## C6: telemetry angle under inversion -/

/-- The state reached from activation by setting the inversion flag and then
commanding `camServ_tpos:10000` (10 degrees): used as concrete input below. -/
def invertedTposState : ServoState :=
  { initialState with isInverted := 1, targetPos_deg := 10, targetPos_us := 1391 }

/-- C6 counterexample: command `camServ_tpos:10000` (10 degrees) while the
inversion flag is set; the next control tick snaps to the target
(`target_us = 1391`), but the stored `m_currentPos_deg`, recomputed by
`MicrosecondsToDegrees(m_currentPos_us)` with the inversion flag left at its
default `false`, is `-96 / 9.523809 ≈ -10.08`, not exactly `-10`. -/
theorem currentDeg_not_exact_negation :
    (handleCommand { initialState with isInverted := 1 }
        (CCommand.tpos 10000)).1.targetPos_deg = 10 ∧
    (controlTick (handleCommand { initialState with isInverted := 1 }
        (CCommand.tpos 10000)).1 5).currentPos_us =
      (handleCommand { initialState with isInverted := 1 }
        (CCommand.tpos 10000)).1.targetPos_us ∧
    (controlTick (handleCommand { initialState with isInverted := 1 }
        (CCommand.tpos 10000)).1 5).currentPos_deg ≠ -10 := by
  have hdec : Decode 10000 = 10 := by
    unfold Decode
    norm_num
  have h1391 : DegreesToMicroseconds 10 true = 1391 := by
    unfold DegreesToMicroseconds DegreesToMicrosecondsQ u32cast kMicrosecPerDegree
      kZeroPosMicrosecs
    norm_num
    rfl
  have hst1 : (handleCommand { initialState with isInverted := 1 }
      (CCommand.tpos 10000)).1 = invertedTposState := by
    show ({ initialState with
            isInverted := 1
            targetPos_deg := Decode 10000
            targetPos_us := DegreesToMicroseconds (Decode 10000) (intToBool 1) } : ServoState)
        = invertedTposState
    unfold invertedTposState
    rw [hdec, show intToBool 1 = true from rfl, h1391]
  have hneutral : kNeutralPosition_us = 1487 := by
    unfold kNeutralPosition_us DegreesToMicroseconds DegreesToMicrosecondsQ u32cast
      kMicrosecPerDegree kZeroPosMicrosecs
    norm_num
    rfl
  rw [hst1]
  have hne : invertedTposState.currentPos_us ≠ invertedTposState.targetPos_us := by
    show kNeutralPosition_us ≠ 1391
    rw [hneutral]
    decide
  have hsnap : snapCond ((invertedTposState.targetPos_us : ℚ) -
      invertedTposState.fCurrentPos_us) 5 invertedTposState.speed_us_per_ms = true := by
    rw [show invertedTposState.targetPos_us = 1391 from rfl,
        show invertedTposState.fCurrentPos_us = kZeroPosMicrosecs from rfl,
        show invertedTposState.speed_us_per_ms = kDefaultSpeed * 0.001 * kMicrosecPerDegree
          from rfl]
    unfold snapCond kZeroPosMicrosecs kDefaultSpeed kMicrosecPerDegree
    rw [if_neg (by norm_num : ¬ (5 : ℕ) = 0), decide_eq_true_eq]
    push_cast
    norm_num
  obtain ⟨hcu, hfu, hdeg⟩ := controlTick_snap_fields invertedTposState 5 hne hsnap
  refine ⟨rfl, hcu, ?_⟩
  rw [hdeg]
  show MicrosecondsToDegrees 1391 false ≠ -10
  unfold MicrosecondsToDegrees MicrosecondsToDegreesQ kDegPerMicrosec kMicrosecPerDegree
    kZeroPosMicrosecs
  norm_num

/-- C6 amended: on every control tick that moves the position, `current_deg`
is recomputed from the new `current_us` with the inversion flag ignored
(`MicrosecondsToDegrees` is called with its default `false` argument); and
for a target `d` commanded while inverted, the converged angle
`MicrosecondsToDegrees(DegreesToMicroseconds(d, true), false)` lies within
`kDegPerMicrosec ≈ 0.105` degrees below the exact negation `-d` (equality
only when the pulse value is integral), rather than equalling `d`. -/
theorem currentDeg_ignores_inversion (st : ServoState) (tDelta : ℕ) (d : ℚ) :
    (st.currentPos_us ≠ st.targetPos_us →
      (controlTick st tDelta).currentPos_deg =
        MicrosecondsToDegrees ((controlTick st tDelta).currentPos_us) false) ∧
    (0 ≤ DegreesToMicrosecondsQ d true →
      MicrosecondsToDegrees (DegreesToMicroseconds d true) false ≤ -d ∧
      -d - kDegPerMicrosec < MicrosecondsToDegrees (DegreesToMicroseconds d true) false) := by
  constructor
  · intro hne
    unfold controlTick
    rw [if_neg hne]
    split <;> rfl
  · intro h0
    have hcast : ((DegreesToMicroseconds d true : ℕ) : ℚ) =
        ((Int.floor (DegreesToMicrosecondsQ d true) : ℤ) : ℚ) := by
      unfold DegreesToMicroseconds
      exact u32cast_cast _ h0
    have hle : ((Int.floor (DegreesToMicrosecondsQ d true) : ℤ) : ℚ) ≤
        DegreesToMicrosecondsQ d true := Int.floor_le _
    have hgt : DegreesToMicrosecondsQ d true - 1 <
        ((Int.floor (DegreesToMicrosecondsQ d true) : ℤ) : ℚ) := Int.sub_one_lt_floor _
    unfold MicrosecondsToDegrees
    rw [hcast]
    unfold MicrosecondsToDegreesQ DegreesToMicrosecondsQ at *
    unfold kDegPerMicrosec kMicrosecPerDegree kZeroPosMicrosecs at *
    norm_num at *
    constructor <;> linarith

/-- Witness for C6 amended, on the concrete post-command state (which the
tick moves) and the commanded angle 10. -/
theorem currentDeg_ignores_inversion_witness :
    (invertedTposState.currentPos_us ≠ invertedTposState.targetPos_us ∧
      (controlTick invertedTposState 5).currentPos_deg =
        MicrosecondsToDegrees ((controlTick invertedTposState 5).currentPos_us) false) ∧
    ((0 : ℚ) ≤ DegreesToMicrosecondsQ 10 true ∧
      MicrosecondsToDegrees (DegreesToMicroseconds 10 true) false ≤ -10 ∧
      -10 - kDegPerMicrosec < MicrosecondsToDegrees (DegreesToMicroseconds 10 true) false) := by
  have hne : invertedTposState.currentPos_us ≠ invertedTposState.targetPos_us := by
    show kNeutralPosition_us ≠ 1391
    unfold kNeutralPosition_us DegreesToMicroseconds DegreesToMicrosecondsQ u32cast
      kMicrosecPerDegree kZeroPosMicrosecs
    norm_num
    decide
  have h0 : (0 : ℚ) ≤ DegreesToMicrosecondsQ 10 true := by
    unfold DegreesToMicrosecondsQ kMicrosecPerDegree kZeroPosMicrosecs
    norm_num
  exact ⟨⟨hne, (currentDeg_ignores_inversion invertedTposState 5 10).1 hne⟩,
    ⟨h0, (currentDeg_ignores_inversion invertedTposState 5 10).2 h0⟩⟩

/-! ## C1: snap-branch condition -/

/-- C1 counterexample: with `target_us = 1400`, `current_us = 1487`,
`fCurrent = 1487`, `speed_us_per_ms = 0.1` and `dt = 5`, the error is `-87`
and `|error| / dt = 17.4 ≥ 0.1`, so the claim predicts the proportional-step
branch; but line 175 compares the signed quotient `-17.4 < 0.1`, so the code
snaps directly to the target. -/
theorem snap_despite_speed_exceeded :
    snapCond ((1400 : ℚ) - 1487) 5 (1/10) = true ∧
    ¬ (|(1400 : ℚ) - 1487| / 5 < 1/10) ∧
    (controlTick { initialState with targetPos_us := 1400, speed_us_per_ms := 1/10 }
        5).currentPos_us = 1400 := by
  have herr : |(1400 : ℚ) - 1487| = 87 := by
    rw [show (1400 : ℚ) - 1487 = -87 by norm_num, abs_neg, abs_of_pos (by norm_num)]
  have hsnap : snapCond ((1400 : ℚ) - 1487) 5 (1/10) = true := by
    unfold snapCond
    rw [if_neg (by norm_num : ¬ (5 : ℕ) = 0), decide_eq_true_eq]
    push_cast
    norm_num
  refine ⟨hsnap, by rw [herr]; norm_num, ?_⟩
  have hneutral : kNeutralPosition_us = 1487 := by
    unfold kNeutralPosition_us DegreesToMicroseconds DegreesToMicrosecondsQ u32cast
      kMicrosecPerDegree kZeroPosMicrosecs
    norm_num
    rfl
  have hne : ({ initialState with targetPos_us := 1400, speed_us_per_ms := 1/10 } :
      ServoState).currentPos_us ≠
      ({ initialState with targetPos_us := 1400, speed_us_per_ms := 1/10 } :
        ServoState).targetPos_us := by
    show kNeutralPosition_us ≠ 1400
    rw [hneutral]
    decide
  have hsnap2 : snapCond
      ((({ initialState with targetPos_us := 1400, speed_us_per_ms := 1/10 } :
          ServoState).targetPos_us : ℚ) -
        ({ initialState with targetPos_us := 1400, speed_us_per_ms := 1/10 } :
          ServoState).fCurrentPos_us) 5
      ({ initialState with targetPos_us := 1400, speed_us_per_ms := 1/10 } :
        ServoState).speed_us_per_ms = true := by
    show snapCond (((1400 : ℕ) : ℚ) - kZeroPosMicrosecs) 5 (1/10) = true
    unfold snapCond kZeroPosMicrosecs
    rw [if_neg (by norm_num : ¬ (5 : ℕ) = 0), decide_eq_true_eq]
    push_cast
    norm_num
  exact (controlTick_snap_fields _ 5 hne hsnap2).1

/-- C1 amended: for a tick with positive elapsed time and position not at
target, the snap branch is taken exactly when the SIGNED quotient
`error / dt` is below `speed_us_per_ms` (no absolute value is applied at
line 175); in particular, whenever the error is negative and the speed cap
positive, the code snaps regardless of the error magnitude. -/
theorem snap_iff_signed_quotient (st : ServoState) (tDelta : ℕ)
    (hdt : 1 ≤ tDelta) :
    (snapCond ((st.targetPos_us : ℚ) - st.fCurrentPos_us) tDelta st.speed_us_per_ms = true ↔
      ((st.targetPos_us : ℚ) - st.fCurrentPos_us) / (tDelta : ℚ) < st.speed_us_per_ms) ∧
    (st.currentPos_us ≠ st.targetPos_us →
      (st.targetPos_us : ℚ) - st.fCurrentPos_us < 0 →
      0 < st.speed_us_per_ms →
      (controlTick st tDelta).currentPos_us = st.targetPos_us) := by
  have hdt0 : tDelta ≠ 0 := by omega
  constructor
  · unfold snapCond
    rw [if_neg hdt0, decide_eq_true_eq]
  · intro hne herr hs
    have hq : ((st.targetPos_us : ℚ) - st.fCurrentPos_us) / (tDelta : ℚ) <
        st.speed_us_per_ms := by
      have hdtq : (0 : ℚ) < (tDelta : ℚ) := by
        exact_mod_cast Nat.pos_of_ne_zero hdt0
      exact lt_of_le_of_lt (le_of_lt (div_neg_of_neg_of_pos herr hdtq)) hs
    have hsnap : snapCond ((st.targetPos_us : ℚ) - st.fCurrentPos_us) tDelta
        st.speed_us_per_ms = true := by
      unfold snapCond
      rw [if_neg hdt0, decide_eq_true_eq]
      exact hq
    exact (controlTick_snap_fields st tDelta hne hsnap).1

/-- Witness for C1 amended, on the concrete state of the counterexample. -/
theorem snap_iff_signed_quotient_witness :
    (1 ≤ 5 ∧
      (snapCond ((({ initialState with targetPos_us := 1400, speed_us_per_ms := 1/10 } :
            ServoState).targetPos_us : ℚ) -
          ({ initialState with targetPos_us := 1400, speed_us_per_ms := 1/10 } :
            ServoState).fCurrentPos_us) 5
          ({ initialState with targetPos_us := 1400, speed_us_per_ms := 1/10 } :
            ServoState).speed_us_per_ms = true ↔
        ((({ initialState with targetPos_us := 1400, speed_us_per_ms := 1/10 } :
            ServoState).targetPos_us : ℚ) -
          ({ initialState with targetPos_us := 1400, speed_us_per_ms := 1/10 } :
            ServoState).fCurrentPos_us) / ((5 : ℕ) : ℚ) <
          ({ initialState with targetPos_us := 1400, speed_us_per_ms := 1/10 } :
            ServoState).speed_us_per_ms)) :=
  ⟨by omega,
   (snap_iff_signed_quotient
     { initialState with targetPos_us := 1400, speed_us_per_ms := 1/10 } 5 (by omega)).1⟩

/-! ## C5: zero elapsed time -/

/-- C5: with `dt = 0` and position not at target (`current = 1487`,
`target = 1497`, `speed_us_per_ms = 0.5`), the division at line 175 IS
evaluated with a zero divisor (there is no guard before it); under IEEE-754
it yields `+inf`, the comparison fails, and the proportional-step branch
runs (`current_us` becomes 1492): the tick is neither skipped nor treated
as the snap branch. -/
theorem divisionByZero_reached :
    controlDividesByZero
      { initialState with targetPos_us := 1497, speed_us_per_ms := 1/2 } 0 = true ∧
    controlTick { initialState with targetPos_us := 1497, speed_us_per_ms := 1/2 } 0 ≠
      { initialState with targetPos_us := 1497, speed_us_per_ms := 1/2 } ∧
    (controlTick { initialState with targetPos_us := 1497, speed_us_per_ms := 1/2 }
        0).currentPos_us = 1492 ∧
    (controlTick { initialState with targetPos_us := 1497, speed_us_per_ms := 1/2 }
        0).currentPos_us ≠ 1497 := by
  have hneutral : kNeutralPosition_us = 1487 := by
    unfold kNeutralPosition_us DegreesToMicroseconds DegreesToMicrosecondsQ u32cast
      kMicrosecPerDegree kZeroPosMicrosecs
    norm_num
    rfl
  have hne : ({ initialState with targetPos_us := 1497, speed_us_per_ms := 1/2 } :
      ServoState).currentPos_us ≠
      ({ initialState with targetPos_us := 1497, speed_us_per_ms := 1/2 } :
        ServoState).targetPos_us := by
    show kNeutralPosition_us ≠ 1497
    rw [hneutral]
    decide
  have hdiv : controlDividesByZero
      { initialState with targetPos_us := 1497, speed_us_per_ms := 1/2 } 0 = true := by
    unfold controlDividesByZero
    rw [Bool.and_eq_true, decide_eq_true_eq, decide_eq_true_eq]
    exact ⟨hne, rfl⟩
  have hsnap : snapCond
      ((({ initialState with targetPos_us := 1497, speed_us_per_ms := 1/2 } :
          ServoState).targetPos_us : ℚ) -
        ({ initialState with targetPos_us := 1497, speed_us_per_ms := 1/2 } :
          ServoState).fCurrentPos_us) 0
      ({ initialState with targetPos_us := 1497, speed_us_per_ms := 1/2 } :
        ServoState).speed_us_per_ms = false := by
    show snapCond (((1497 : ℕ) : ℚ) - kZeroPosMicrosecs) 0 (1/2) = false
    unfold snapCond kZeroPosMicrosecs
    rw [if_pos rfl, decide_eq_false_iff_not]
    push_cast
    norm_num
  obtain ⟨hf, hcu⟩ := controlTick_step_fields _ 0 hne hsnap
  have hval : ({ initialState with targetPos_us := 1497, speed_us_per_ms := 1/2 } :
      ServoState).fCurrentPos_us +
      ({ initialState with targetPos_us := 1497, speed_us_per_ms := 1/2 } :
        ServoState).speed_us_per_ms *
        ((({ initialState with targetPos_us := 1497, speed_us_per_ms := 1/2 } :
          ServoState).targetPos_us : ℚ) -
          ({ initialState with targetPos_us := 1497, speed_us_per_ms := 1/2 } :
            ServoState).fCurrentPos_us) = 1492 := by
    show kZeroPosMicrosecs + (1/2) * (((1497 : ℕ) : ℚ) - kZeroPosMicrosecs) = 1492
    unfold kZeroPosMicrosecs
    push_cast
    norm_num
  have hc1492 :
      (controlTick { initialState with targetPos_us := 1497, speed_us_per_ms := 1/2 }
        0).currentPos_us = 1492 := by
    rw [hcu, hval]
    unfold u32cast
    norm_num
    rfl
  refine ⟨hdiv, ?_, hc1492, by rw [hc1492]; decide⟩
  intro hEq
  have :
      (controlTick { initialState with targetPos_us := 1497, speed_us_per_ms := 1/2 }
        0).currentPos_us = kNeutralPosition_us := by
    rw [hEq]
    exact rfl
  rw [hc1492, hneutral] at this
  exact absurd this (by decide)

/-! ## C2: no overshoot -/

/-- C2 counterexample: from the reachable state `current = 1487`,
`target = 1497` with speed cap `speed_us_per_ms = 2` and `dt = 5` the
proportional branch runs (`2 ≥ error/dt = 2`), and the step
`fCurrent += 2 * 10` lands at 1507: `current_us` crosses past the target. -/
theorem overshoot_at_large_speed :
    ({ initialState with targetPos_us := 1497, speed_us_per_ms := 2 } :
        ServoState).currentPos_us ≤
      ({ initialState with targetPos_us := 1497, speed_us_per_ms := 2 } :
        ServoState).targetPos_us ∧
    ¬ ((controlTick { initialState with targetPos_us := 1497, speed_us_per_ms := 2 }
        5).currentPos_us ≤
      ({ initialState with targetPos_us := 1497, speed_us_per_ms := 2 } :
        ServoState).targetPos_us) := by
  have hneutral : kNeutralPosition_us = 1487 := by
    unfold kNeutralPosition_us DegreesToMicroseconds DegreesToMicrosecondsQ u32cast
      kMicrosecPerDegree kZeroPosMicrosecs
    norm_num
    rfl
  have hne : ({ initialState with targetPos_us := 1497, speed_us_per_ms := 2 } :
      ServoState).currentPos_us ≠
      ({ initialState with targetPos_us := 1497, speed_us_per_ms := 2 } :
        ServoState).targetPos_us := by
    show kNeutralPosition_us ≠ 1497
    rw [hneutral]
    decide
  have hsnap : snapCond
      ((({ initialState with targetPos_us := 1497, speed_us_per_ms := 2 } :
          ServoState).targetPos_us : ℚ) -
        ({ initialState with targetPos_us := 1497, speed_us_per_ms := 2 } :
          ServoState).fCurrentPos_us) 5
      ({ initialState with targetPos_us := 1497, speed_us_per_ms := 2 } :
        ServoState).speed_us_per_ms = false := by
    show snapCond (((1497 : ℕ) : ℚ) - kZeroPosMicrosecs) 5 2 = false
    unfold snapCond kZeroPosMicrosecs
    rw [if_neg (by norm_num : ¬ (5 : ℕ) = 0), decide_eq_false_iff_not]
    push_cast
    norm_num
  obtain ⟨hf, hcu⟩ := controlTick_step_fields _ 5 hne hsnap
  have hval : ({ initialState with targetPos_us := 1497, speed_us_per_ms := 2 } :
      ServoState).fCurrentPos_us +
      ({ initialState with targetPos_us := 1497, speed_us_per_ms := 2 } :
        ServoState).speed_us_per_ms *
        ((({ initialState with targetPos_us := 1497, speed_us_per_ms := 2 } :
          ServoState).targetPos_us : ℚ) -
          ({ initialState with targetPos_us := 1497, speed_us_per_ms := 2 } :
            ServoState).fCurrentPos_us) = 1507 := by
    show kZeroPosMicrosecs + 2 * (((1497 : ℕ) : ℚ) - kZeroPosMicrosecs) = 1507
    unfold kZeroPosMicrosecs
    push_cast
    norm_num
  have hc1507 :
      (controlTick { initialState with targetPos_us := 1497, speed_us_per_ms := 2 }
        5).currentPos_us = 1507 := by
    rw [hcu, hval]
    unfold u32cast
    norm_num
    rfl
  constructor
  · show kNeutralPosition_us ≤ 1497
    rw [hneutral]
    decide
  · rw [hc1507]
    show ¬ ((1507 : ℕ) ≤ 1497)
    decide

/-- C2 amended: one control tick never moves `current_us` past `target_us`
in either direction, PROVIDED the speed cap satisfies
`speed_us_per_ms ≤ 1` (about 105 degrees per second); the code's
proportional step `fCurrent += speed * error` can overshoot for larger
caps.  Hypotheses: `current_us` is the truncation of `fCurrent` (the
derivation invariant maintained by every tick) and `fCurrent ≥ 0`. -/
theorem no_overshoot_of_speed_le_one (st : ServoState) (tDelta : ℕ)
    (hwf : st.currentPos_us = u32cast st.fCurrentPos_us)
    (hf0 : 0 ≤ st.fCurrentPos_us)
    (hs0 : 0 < st.speed_us_per_ms) (hs1 : st.speed_us_per_ms ≤ 1) :
    (st.currentPos_us ≤ st.targetPos_us →
      (controlTick st tDelta).currentPos_us ≤ st.targetPos_us) ∧
    (st.targetPos_us ≤ st.currentPos_us →
      st.targetPos_us ≤ (controlTick st tDelta).currentPos_us) := by
  by_cases heq : st.currentPos_us = st.targetPos_us
  · rw [controlTick_eq_self st tDelta heq]
    exact ⟨fun h => h, fun h => h⟩
  · constructor
    · intro hle
      by_cases hsnap : snapCond ((st.targetPos_us : ℚ) - st.fCurrentPos_us) tDelta
          st.speed_us_per_ms = true
      · rw [(controlTick_snap_fields st tDelta heq hsnap).1]
      · rw [Bool.not_eq_true] at hsnap
        have he0 : 0 ≤ (st.targetPos_us : ℚ) - st.fCurrentPos_us := by
          unfold snapCond at hsnap
          by_cases hdt : tDelta = 0
          · rw [if_pos hdt, decide_eq_false_iff_not] at hsnap
            exact not_lt.mp hsnap
          · rw [if_neg hdt, decide_eq_false_iff_not] at hsnap
            have hdtq : (0 : ℚ) < (tDelta : ℚ) := by
              exact_mod_cast Nat.pos_of_ne_zero hdt
            have h1 : st.speed_us_per_ms ≤
                ((st.targetPos_us : ℚ) - st.fCurrentPos_us) / (tDelta : ℚ) :=
              not_lt.mp hsnap
            have h2 : (0 : ℚ) <
                ((st.targetPos_us : ℚ) - st.fCurrentPos_us) / (tDelta : ℚ) :=
              lt_of_lt_of_le hs0 h1
            have h3 : (0 : ℚ) <
                ((st.targetPos_us : ℚ) - st.fCurrentPos_us) / (tDelta : ℚ) * (tDelta : ℚ) :=
              mul_pos h2 hdtq
            rw [div_mul_cancel₀ _ (ne_of_gt hdtq)] at h3
            exact le_of_lt h3
        rw [(controlTick_step_fields st tDelta heq hsnap).2]
        have hfle : st.fCurrentPos_us +
            st.speed_us_per_ms * ((st.targetPos_us : ℚ) - st.fCurrentPos_us) ≤
            (st.targetPos_us : ℚ) := by
          have h5 : st.speed_us_per_ms * ((st.targetPos_us : ℚ) - st.fCurrentPos_us) ≤
              (st.targetPos_us : ℚ) - st.fCurrentPos_us :=
            mul_le_of_le_one_left he0 hs1
          linarith
        unfold u32cast
        rw [Int.toNat_le]
        exact le_trans (Int.floor_mono hfle) (le_of_eq (Int.floor_natCast _))
    · intro hge
      have hlt : st.targetPos_us < st.currentPos_us :=
        lt_of_le_of_ne hge (fun h => heq h.symm)
      have hcf : ((st.currentPos_us : ℕ) : ℚ) ≤ st.fCurrentPos_us := by
        rw [hwf]
        unfold u32cast
        have h0 : (0 : ℤ) ≤ Int.floor st.fCurrentPos_us := Int.floor_nonneg.mpr hf0
        have h6 : (((Int.floor st.fCurrentPos_us).toNat : ℕ) : ℚ) =
            ((Int.floor st.fCurrentPos_us : ℤ) : ℚ) := by
          exact_mod_cast congrArg (fun z : ℤ => (z : ℚ)) (Int.toNat_of_nonneg h0)
        rw [h6]
        exact Int.floor_le st.fCurrentPos_us
      have herrneg : (st.targetPos_us : ℚ) - st.fCurrentPos_us < 0 := by
        have h5 : ((st.targetPos_us : ℕ) : ℚ) < ((st.currentPos_us : ℕ) : ℚ) := by
          exact_mod_cast hlt
        linarith
      have hsnap : snapCond ((st.targetPos_us : ℚ) - st.fCurrentPos_us) tDelta
          st.speed_us_per_ms = true := by
        unfold snapCond
        by_cases hdt : tDelta = 0
        · rw [if_pos hdt, decide_eq_true_eq]
          exact herrneg
        · rw [if_neg hdt, decide_eq_true_eq]
          have hdtq : (0 : ℚ) < (tDelta : ℚ) := by
            exact_mod_cast Nat.pos_of_ne_zero hdt
          exact lt_of_le_of_lt (le_of_lt (div_neg_of_neg_of_pos herrneg hdtq)) hs0
      rw [(controlTick_snap_fields st tDelta heq hsnap).1]

/-- Witness for C2 amended, on the initial state with target 1497 and the
default speed cap (`0.476 us/ms ≤ 1`). -/
theorem no_overshoot_of_speed_le_one_witness :
    ({ initialState with targetPos_us := 1497 } : ServoState).currentPos_us =
      u32cast ({ initialState with targetPos_us := 1497 } : ServoState).fCurrentPos_us ∧
    (0 : ℚ) ≤ ({ initialState with targetPos_us := 1497 } : ServoState).fCurrentPos_us ∧
    (0 : ℚ) < ({ initialState with targetPos_us := 1497 } : ServoState).speed_us_per_ms ∧
    ({ initialState with targetPos_us := 1497 } : ServoState).speed_us_per_ms ≤ 1 ∧
    (({ initialState with targetPos_us := 1497 } : ServoState).currentPos_us ≤
        ({ initialState with targetPos_us := 1497 } : ServoState).targetPos_us →
      (controlTick { initialState with targetPos_us := 1497 } 5).currentPos_us ≤
        ({ initialState with targetPos_us := 1497 } : ServoState).targetPos_us) := by
  have hwf : ({ initialState with targetPos_us := 1497 } : ServoState).currentPos_us =
      u32cast ({ initialState with targetPos_us := 1497 } : ServoState).fCurrentPos_us := by
    show kNeutralPosition_us = u32cast kZeroPosMicrosecs
    unfold kNeutralPosition_us DegreesToMicroseconds DegreesToMicrosecondsQ u32cast
      kMicrosecPerDegree kZeroPosMicrosecs
    norm_num
  have hf0 : (0 : ℚ) ≤
      ({ initialState with targetPos_us := 1497 } : ServoState).fCurrentPos_us := by
    show (0 : ℚ) ≤ kZeroPosMicrosecs
    unfold kZeroPosMicrosecs
    norm_num
  have hs0 : (0 : ℚ) <
      ({ initialState with targetPos_us := 1497 } : ServoState).speed_us_per_ms := by
    show (0 : ℚ) < kDefaultSpeed * 0.001 * kMicrosecPerDegree
    unfold kDefaultSpeed kMicrosecPerDegree
    norm_num
  have hs1 : ({ initialState with targetPos_us := 1497 } : ServoState).speed_us_per_ms
      ≤ 1 := by
    show kDefaultSpeed * 0.001 * kMicrosecPerDegree ≤ 1
    unfold kDefaultSpeed kMicrosecPerDegree
    norm_num
  exact ⟨hwf, hf0, hs0, hs1,
    (no_overshoot_of_speed_le_one { initialState with targetPos_us := 1497 } 5
      hwf hf0 hs0 hs1).1⟩

/-! ## C3: convergence -/

theorem controlTick_reach_of_pow (tDelta : ℕ) (hdt : 1 ≤ tDelta) :
    ∀ (n : ℕ) (st : ServoState), 0 < st.speed_us_per_ms → st.speed_us_per_ms < 1 →
      ((st.targetPos_us : ℚ) - st.fCurrentPos_us) * (1 - st.speed_us_per_ms) ^ n <
        st.speed_us_per_ms * (tDelta : ℚ) →
      ∃ m : ℕ, ((fun s => controlTick s tDelta)^[m] st).currentPos_us =
        ((fun s => controlTick s tDelta)^[m] st).targetPos_us := by
  have hdt0 : tDelta ≠ 0 := by omega
  have hdtq : (0 : ℚ) < (tDelta : ℚ) := by exact_mod_cast Nat.pos_of_ne_zero hdt0
  intro n
  induction n with
  | zero =>
      intro st hs0 hs1 hlt
      by_cases heq : st.currentPos_us = st.targetPos_us
      · exact ⟨0, heq⟩
      · refine ⟨1, ?_⟩
        rw [pow_zero, mul_one] at hlt
        have hsnap : snapCond ((st.targetPos_us : ℚ) - st.fCurrentPos_us) tDelta
            st.speed_us_per_ms = true := by
          unfold snapCond
          rw [if_neg hdt0, decide_eq_true_eq, div_lt_iff₀ hdtq]
          linarith
        rw [Function.iterate_one]
        show (controlTick st tDelta).currentPos_us = (controlTick st tDelta).targetPos_us
        rw [(controlTick_snap_fields st tDelta heq hsnap).1, controlTick_targetPos_us]
  | succ n ih =>
      intro st hs0 hs1 hlt
      by_cases heq : st.currentPos_us = st.targetPos_us
      · exact ⟨0, heq⟩
      · by_cases hsnap : snapCond ((st.targetPos_us : ℚ) - st.fCurrentPos_us) tDelta
            st.speed_us_per_ms = true
        · refine ⟨1, ?_⟩
          rw [Function.iterate_one]
          show (controlTick st tDelta).currentPos_us = (controlTick st tDelta).targetPos_us
          rw [(controlTick_snap_fields st tDelta heq hsnap).1, controlTick_targetPos_us]
        · rw [Bool.not_eq_true] at hsnap
          obtain ⟨hf, hcu⟩ := controlTick_step_fields st tDelta heq hsnap
          have hsp : (controlTick st tDelta).speed_us_per_ms = st.speed_us_per_ms :=
            controlTick_speed_us_per_ms st tDelta
          have htg : (controlTick st tDelta).targetPos_us = st.targetPos_us :=
            controlTick_targetPos_us st tDelta
          have herr : ((controlTick st tDelta).targetPos_us : ℚ) -
              (controlTick st tDelta).fCurrentPos_us =
              (1 - st.speed_us_per_ms) * ((st.targetPos_us : ℚ) - st.fCurrentPos_us) := by
            rw [htg, hf]
            ring
          have hlt2 : (((controlTick st tDelta).targetPos_us : ℚ) -
              (controlTick st tDelta).fCurrentPos_us) *
              (1 - (controlTick st tDelta).speed_us_per_ms) ^ n <
              (controlTick st tDelta).speed_us_per_ms * (tDelta : ℚ) := by
            rw [herr, hsp]
            have hps : (1 - st.speed_us_per_ms) *
                ((st.targetPos_us : ℚ) - st.fCurrentPos_us) *
                (1 - st.speed_us_per_ms) ^ n =
                ((st.targetPos_us : ℚ) - st.fCurrentPos_us) *
                (1 - st.speed_us_per_ms) ^ (n + 1) := by
              rw [pow_succ]
              ring
            rw [hps]
            exact hlt
          obtain ⟨m, hm⟩ := ih (controlTick st tDelta) (by rw [hsp]; exact hs0)
            (by rw [hsp]; exact hs1) hlt2
          exact ⟨m + 1, by rw [Function.iterate_succ_apply]; exact hm⟩

theorem controlTick_reach_of_one_le (tDelta : ℕ) (hdt : 1 ≤ tDelta) (st : ServoState)
    (hs0 : 0 < st.speed_us_per_ms) (hs1 : 1 ≤ st.speed_us_per_ms) :
    ∃ m : ℕ, ((fun s => controlTick s tDelta)^[m] st).currentPos_us =
      ((fun s => controlTick s tDelta)^[m] st).targetPos_us := by
  have hdt0 : tDelta ≠ 0 := by omega
  have hdtq : (0 : ℚ) < (tDelta : ℚ) := by exact_mod_cast Nat.pos_of_ne_zero hdt0
  by_cases heq : st.currentPos_us = st.targetPos_us
  · exact ⟨0, heq⟩
  · by_cases hsnap : snapCond ((st.targetPos_us : ℚ) - st.fCurrentPos_us) tDelta
        st.speed_us_per_ms = true
    · refine ⟨1, ?_⟩
      rw [Function.iterate_one]
      show (controlTick st tDelta).currentPos_us = (controlTick st tDelta).targetPos_us
      rw [(controlTick_snap_fields st tDelta heq hsnap).1, controlTick_targetPos_us]
    · rw [Bool.not_eq_true] at hsnap
      obtain ⟨hf, hcu⟩ := controlTick_step_fields st tDelta heq hsnap
      have hsp : (controlTick st tDelta).speed_us_per_ms = st.speed_us_per_ms :=
        controlTick_speed_us_per_ms st tDelta
      have htg : (controlTick st tDelta).targetPos_us = st.targetPos_us :=
        controlTick_targetPos_us st tDelta
      have hege : st.speed_us_per_ms * (tDelta : ℚ) ≤
          (st.targetPos_us : ℚ) - st.fCurrentPos_us := by
        unfold snapCond at hsnap
        rw [if_neg hdt0, decide_eq_false_iff_not, div_lt_iff₀ hdtq] at hsnap
        linarith [not_lt.mp (fun hcon =>
          hsnap (lt_of_lt_of_le hcon (le_refl _)))]
      have he0 : (0 : ℚ) < (st.targetPos_us : ℚ) - st.fCurrentPos_us :=
        lt_of_lt_of_le (mul_pos hs0 hdtq) hege
      have he1 : ((controlTick st tDelta).targetPos_us : ℚ) -
          (controlTick st tDelta).fCurrentPos_us =
          (1 - st.speed_us_per_ms) * ((st.targetPos_us : ℚ) - st.fCurrentPos_us) := by
        rw [htg, hf]
        ring
      by_cases heq1 : (controlTick st tDelta).currentPos_us =
          (controlTick st tDelta).targetPos_us
      · refine ⟨1, ?_⟩
        rw [Function.iterate_one]
        exact heq1
      · have he1le : ((controlTick st tDelta).targetPos_us : ℚ) -
            (controlTick st tDelta).fCurrentPos_us ≤ 0 := by
          rw [he1]
          have h7 : 1 - st.speed_us_per_ms ≤ 0 := by linarith
          exact mul_nonpos_iff.mpr (Or.inr ⟨h7, le_of_lt he0⟩)
        have hsnap1 : snapCond (((controlTick st tDelta).targetPos_us : ℚ) -
            (controlTick st tDelta).fCurrentPos_us) tDelta
            (controlTick st tDelta).speed_us_per_ms = true := by
          unfold snapCond
          rw [if_neg hdt0, decide_eq_true_eq, hsp]
          have h9 : (((controlTick st tDelta).targetPos_us : ℚ) -
              (controlTick st tDelta).fCurrentPos_us) / (tDelta : ℚ) ≤ 0 :=
            div_nonpos_iff.mpr (Or.inr ⟨he1le, le_of_lt hdtq⟩)
          exact lt_of_le_of_lt h9 hs0
        refine ⟨2, ?_⟩
        rw [show (2 : ℕ) = 1 + 1 from rfl, Function.iterate_add_apply,
          Function.iterate_one]
        show (controlTick (controlTick st tDelta) tDelta).currentPos_us =
          (controlTick (controlTick st tDelta) tDelta).targetPos_us
        rw [(controlTick_snap_fields (controlTick st tDelta) tDelta heq1 hsnap1).1]
        simp [controlTick_targetPos_us]

/-- C3: for every state, any control period of at least one millisecond and
any strictly positive speed cap, with no further commands arriving there is
a finite number of control ticks after which `current_us` equals
`target_us`, and from then on every subsequent tick leaves the state fixed
(Idle is reached and is stable). -/
theorem convergence_to_target (st : ServoState) (tDelta : ℕ)
    (hdt : 1 ≤ tDelta) (hs0 : 0 < st.speed_us_per_ms) :
    ∃ n : ℕ, ∀ m : ℕ, n ≤ m →
      ((fun s => controlTick s tDelta)^[m] st).currentPos_us = st.targetPos_us ∧
      controlTick ((fun s => controlTick s tDelta)^[m] st) tDelta =
        (fun s => controlTick s tDelta)^[m] st := by
  have hdt0 : tDelta ≠ 0 := by omega
  have hdtq : (0 : ℚ) < (tDelta : ℚ) := by exact_mod_cast Nat.pos_of_ne_zero hdt0
  have hreach : ∃ k : ℕ, ((fun s => controlTick s tDelta)^[k] st).currentPos_us =
      ((fun s => controlTick s tDelta)^[k] st).targetPos_us := by
    rcases lt_or_le st.speed_us_per_ms 1 with hs1 | hs1
    · rcases le_or_lt ((st.targetPos_us : ℚ) - st.fCurrentPos_us) 0 with he | he
      · apply controlTick_reach_of_pow tDelta hdt 0 st hs0 hs1
        rw [pow_zero, mul_one]
        have h8 : (0 : ℚ) < st.speed_us_per_ms * (tDelta : ℚ) := mul_pos hs0 hdtq
        linarith
      · obtain ⟨k, hk⟩ := exists_pow_lt_of_lt_one
          (show (0 : ℚ) < st.speed_us_per_ms * (tDelta : ℚ) /
              ((st.targetPos_us : ℚ) - st.fCurrentPos_us) from
            div_pos (mul_pos hs0 hdtq) he)
          (show 1 - st.speed_us_per_ms < 1 by linarith)
        apply controlTick_reach_of_pow tDelta hdt k st hs0 hs1
        have h9 := (lt_div_iff₀ he).mp hk
        linarith
    · exact controlTick_reach_of_one_le tDelta hdt st hs0 hs1
  obtain ⟨k, hk⟩ := hreach
  refine ⟨k, fun m hm => ?_⟩
  have hiter : (fun s => controlTick s tDelta)^[m] st =
      (fun s => controlTick s tDelta)^[k] st := by
    have hmk : m = (m - k) + k := by omega
    rw [hmk, Function.iterate_add_apply]
    exact controlTick_iterate_fix _ tDelta hk (m - k)
  rw [hiter]
  refine ⟨?_, controlTick_eq_self _ tDelta hk⟩
  rw [hk, controlTick_iterate_targetPos_us]

/-- Witness for C3, on the initial state with target 1497, default speed cap
and a 5 ms control period. -/
theorem convergence_to_target_witness :
    1 ≤ 5 ∧
    (0 : ℚ) < ({ initialState with targetPos_us := 1497 } : ServoState).speed_us_per_ms ∧
    ∃ n : ℕ, ∀ m : ℕ, n ≤ m →
      ((fun s => controlTick s 5)^[m] { initialState with targetPos_us := 1497 }
        ).currentPos_us =
        ({ initialState with targetPos_us := 1497 } : ServoState).targetPos_us ∧
      controlTick ((fun s => controlTick s 5)^[m]
          { initialState with targetPos_us := 1497 }) 5 =
        (fun s => controlTick s 5)^[m] { initialState with targetPos_us := 1497 } := by
  have hs0 : (0 : ℚ) <
      ({ initialState with targetPos_us := 1497 } : ServoState).speed_us_per_ms := by
    show (0 : ℚ) < kDefaultSpeed * 0.001 * kMicrosecPerDegree
    unfold kDefaultSpeed kMicrosecPerDegree
    norm_num
  exact ⟨by omega, hs0,
    convergence_to_target { initialState with targetPos_us := 1497 } 5 (by omega) hs0⟩
